import Mathlib

/-!
Shallow embedding of the `polaris1119/langchain1.x-agent` repository
(`src/agent01.py`, `src/agent02.py`) for checking its specification.

Python strings are modelled as Lean `String` (a list of Unicode code
points, matching Python's code-point semantics for `len`, slicing and
substring tests on the ASCII/CJK data this program handles).
-/

namespace Agent

/-- Python `len(s)`: number of code points. -/
def pyLen (s : String) : Nat := s.data.length

/-- Python slice `s[:n]`: first `n` code points. -/
def pySlice (s : String) (n : Nat) : String := ⟨s.data.take n⟩

/-- Helper for `pyIn`: does `hay` start with `needle`? -/
def pyStartsWith : List Char → List Char → Bool
  | [], _ => true
  | _ :: _, [] => false
  | a :: xs, b :: ys => a == b && pyStartsWith xs ys

/-- Helper for `pyIn` on the underlying code-point lists. -/
def pyInAux (needle : List Char) : List Char → Bool
  | [] => needle.isEmpty
  | b :: ys => pyStartsWith needle (b :: ys) || pyInAux needle ys

/-- Python `needle in hay` on strings: substring containment. -/
def pyIn (needle hay : String) : Bool := pyInAux needle.data hay.data

/-- Python `s.lower()` restricted to the ASCII range (CJK characters are
unchanged by `lower`, matching Python on the data this program handles). -/
def pyLower (s : String) : String := ⟨s.data.map Char.toLower⟩

theorem strData_append (a b : String) : (a ++ b).data = a.data ++ b.data := by
  cases a; cases b; rfl

/-! ### The weather tool of `src/agent01.py` (lines 18-26) -/

/-- Fixed report returned for Beijing by both agents. -/
def beijingReport : String := "北京当前天气：晴，-4℃，空气质量良。"

/-- Fixed report returned for Shanghai by both agents. -/
def shanghaiReport : String := "上海当前天气：多云，2℃，有阵风。"

/-- Fallback text of `agent01.get_current_weather` (note: the interpolated
city is the lowercased one, since the Python code rebinds `city`). -/
def fallback01 (city : String) : String :=
  pyLower city ++ " 当前天气信息暂不可用，请稍后再试。"

/-- Embedding of `agent01.get_current_weather` (src/agent01.py lines 18-26). -/
def get_current_weather01 (city : String) : String :=
  let city := pyLower city
  if pyIn "beijing" city || pyIn "北京" city then beijingReport
  else if pyIn "shanghai" city || pyIn "上海" city then shanghaiReport
  else city ++ " 当前天气信息暂不可用，请稍后再试。"

/-- Fallback text of `agent02.get_current_weather`. -/
def fallback02 (city : String) : String :=
  "未找到 " ++ pyLower city ++ " 的天气信息。"

/-- Embedding of `agent02.get_current_weather` (src/agent02.py lines 27-35). -/
def get_current_weather02 (city : String) : String :=
  let city := pyLower city
  if pyIn "beijing" city || pyIn "北京" city then beijingReport
  else if pyIn "shanghai" city || pyIn "上海" city then shanghaiReport
  else "未找到 " ++ city ++ " 的天气信息。"

/-- A city string is recognized when its lowercase form contains one of the
four known-city name patterns the source tests for. -/
def recognizedCity (city : String) : Bool :=
  pyIn "beijing" (pyLower city) || pyIn "北京" (pyLower city) ||
  pyIn "shanghai" (pyLower city) || pyIn "上海" (pyLower city)

theorem shanghai_ne_beijing : shanghaiReport ≠ beijingReport := by decide

theorem fb01_ne_beijing (s : String) :
    s ++ " 当前天气信息暂不可用，请稍后再试。" ≠ beijingReport := by
  intro h
  have hd : s.data ++ " 当前天气信息暂不可用，请稍后再试。".data = beijingReport.data := by
    rw [← strData_append, h]
  have hlen : s.data.length + 18 = 19 := by
    have h0 := congrArg List.length hd
    rw [List.length_append] at h0
    exact h0
  obtain ⟨c, hc⟩ := List.length_eq_one.mp (by omega : s.data.length = 1)
  rw [hc, List.singleton_append] at hd
  have h2 : beijingReport.data =
      '北' :: "京当前天气：晴，-4℃，空气质量良。".data := rfl
  rw [h2] at hd
  injection hd with h3 h4
  exact absurd h4 (by decide)

theorem fb01_ne_shanghai (s : String) :
    s ++ " 当前天气信息暂不可用，请稍后再试。" ≠ shanghaiReport := by
  intro h
  have hd : s.data ++ " 当前天气信息暂不可用，请稍后再试。".data = shanghaiReport.data := by
    rw [← strData_append, h]
  have hlen : s.data.length + 18 = 17 := by
    have h0 := congrArg List.length hd
    rw [List.length_append] at h0
    exact h0
  omega

theorem fb02_ne_beijing (s : String) :
    "未找到 " ++ s ++ " 的天气信息。" ≠ beijingReport := by
  intro h
  have hd : ("未找到 " ++ s).data ++ " 的天气信息。".data = beijingReport.data := by
    rw [← strData_append, h]
  rw [strData_append] at hd
  have h1 : "未找到 ".data = '未' :: "找到 ".data := rfl
  rw [h1, List.cons_append, List.cons_append] at hd
  have h2 : beijingReport.data =
      '北' :: "京当前天气：晴，-4℃，空气质量良。".data := rfl
  rw [h2] at hd
  injection hd with h3 h4
  exact absurd h3 (by decide)

theorem fb02_ne_shanghai (s : String) :
    "未找到 " ++ s ++ " 的天气信息。" ≠ shanghaiReport := by
  intro h
  have hd : ("未找到 " ++ s).data ++ " 的天气信息。".data = shanghaiReport.data := by
    rw [← strData_append, h]
  rw [strData_append] at hd
  have h1 : "未找到 ".data = '未' :: "找到 ".data := rfl
  rw [h1, List.cons_append, List.cons_append] at hd
  have h2 : shanghaiReport.data =
      '上' :: "海当前天气：多云，2℃，有阵风。".data := rfl
  rw [h2] at hd
  injection hd with h3 h4
  exact absurd h3 (by decide)

/-- C1: for every input string, each weather tool returns the fixed Beijing or
Shanghai report when the city is recognized (its lowercase form contains one
of the known-city name patterns, see C8), and otherwise returns its fallback
"unavailable"/"not found" message; the function is total, so no input makes
it fail.  Both `agent01` and `agent02` variants are covered, and the named
known cities "Beijing" and "Shanghai" receive their fixed reports. -/
theorem weather_known_cities_or_fallback (city : String) :
    (get_current_weather01 city = beijingReport ∨
      get_current_weather01 city = shanghaiReport ∨
      get_current_weather01 city = fallback01 city) ∧
    (get_current_weather02 city = beijingReport ∨
      get_current_weather02 city = shanghaiReport ∨
      get_current_weather02 city = fallback02 city) ∧
    (recognizedCity city = false →
      get_current_weather01 city = fallback01 city ∧
      get_current_weather02 city = fallback02 city) ∧
    get_current_weather01 "Beijing" = beijingReport ∧
    get_current_weather01 "Shanghai" = shanghaiReport ∧
    get_current_weather02 "Beijing" = beijingReport ∧
    get_current_weather02 "Shanghai" = shanghaiReport := by
  refine ⟨?_, ?_, ?_, by decide, by decide, by decide, by decide⟩
  · unfold get_current_weather01 fallback01
    cases hb : (pyIn "beijing" (pyLower city) || pyIn "北京" (pyLower city)) <;>
      cases hs : (pyIn "shanghai" (pyLower city) || pyIn "上海" (pyLower city)) <;>
        simp [hb, hs]
  · unfold get_current_weather02 fallback02
    cases hb : (pyIn "beijing" (pyLower city) || pyIn "北京" (pyLower city)) <;>
      cases hs : (pyIn "shanghai" (pyLower city) || pyIn "上海" (pyLower city)) <;>
        simp [hb, hs]
  · intro hrec
    have h1 : pyIn "beijing" (pyLower city) = false := by
      revert hrec; unfold recognizedCity; cases pyIn "beijing" (pyLower city) <;> simp
    have h2 : pyIn "北京" (pyLower city) = false := by
      revert hrec; unfold recognizedCity; cases pyIn "北京" (pyLower city) <;> simp
    have h3 : pyIn "shanghai" (pyLower city) = false := by
      revert hrec; unfold recognizedCity; cases pyIn "shanghai" (pyLower city) <;> simp
    have h4 : pyIn "上海" (pyLower city) = false := by
      revert hrec; unfold recognizedCity; cases pyIn "上海" (pyLower city) <;> simp
    constructor
    · unfold get_current_weather01 fallback01
      simp [h1, h2, h3, h4]
    · unfold get_current_weather02 fallback02
      simp [h1, h2, h3, h4]

/-- Witness for C1 at the concrete unrecognized city "Paris". -/
theorem weather_known_cities_or_fallback_witness :
    recognizedCity "Paris" = false ∧
    (get_current_weather01 "Paris" = fallback01 "Paris" ∧
      get_current_weather02 "Paris" = fallback02 "Paris") :=
  ⟨by decide, (weather_known_cities_or_fallback "Paris").2.2.1 (by decide)⟩

/-- C8: weather-tool city matching is case-insensitive substring matching —
for every string, the Beijing report is returned iff the lowercased city
contains "beijing" or "北京", and when a city matches both the Beijing and
the Shanghai patterns the Beijing branch takes precedence (in both agents). -/
theorem weather_beijing_substring_match (city : String) :
    (get_current_weather02 city = beijingReport ↔
      (pyIn "beijing" (pyLower city) || pyIn "北京" (pyLower city)) = true) ∧
    (get_current_weather01 city = beijingReport ↔
      (pyIn "beijing" (pyLower city) || pyIn "北京" (pyLower city)) = true) ∧
    ((pyIn "beijing" (pyLower city) || pyIn "北京" (pyLower city)) = true →
      (pyIn "shanghai" (pyLower city) || pyIn "上海" (pyLower city)) = true →
      get_current_weather01 city = beijingReport ∧
      get_current_weather02 city = beijingReport) := by
  refine ⟨?_, ?_, ?_⟩
  · unfold get_current_weather02
    cases hb : (pyIn "beijing" (pyLower city) || pyIn "北京" (pyLower city)) <;>
      cases hs : (pyIn "shanghai" (pyLower city) || pyIn "上海" (pyLower city)) <;>
        simp [hb, hs]
    · exact fb02_ne_beijing (pyLower city)
    · exact shanghai_ne_beijing
  · unfold get_current_weather01
    cases hb : (pyIn "beijing" (pyLower city) || pyIn "北京" (pyLower city)) <;>
      cases hs : (pyIn "shanghai" (pyLower city) || pyIn "上海" (pyLower city)) <;>
        simp [hb, hs]
    · exact fb01_ne_beijing (pyLower city)
    · exact shanghai_ne_beijing
  · intro hb hs
    constructor
    · unfold get_current_weather01; simp [hb]
    · unfold get_current_weather02; simp [hb]

/-- Witness for C8 at a concrete city matching both patterns. -/
theorem weather_beijing_substring_match_witness :
    get_current_weather01 "BeiJing上海" = beijingReport ∧
    get_current_weather02 "BeiJing上海" = beijingReport :=
  (weather_beijing_substring_match "BeiJing上海").2.2 (by decide) (by decide)

/-! ### The addition tool of `src/agent02.py` (lines 38-41)

`add_numbers(a, b)` computes `a + b` on Python floats and returns `str` of
the result.  Exact small values (such as 3.0 and 4.0) are represented and
added exactly by IEEE floats, so the arithmetic is modelled over `ℚ`.
Python renders a float with integral value `m` as the decimal numeral of
`m` followed by ".0"; that rendering is modelled below. -/

/-- Decimal digit character for `d` below 10. -/
def digitChar (d : Nat) : Char :=
  match d with
  | 0 => '0' | 1 => '1' | 2 => '2' | 3 => '3' | 4 => '4'
  | 5 => '5' | 6 => '6' | 7 => '7' | 8 => '8' | 9 => '9'
  | _ => ' '

/-- Numeric value of a decimal digit character. -/
def digitVal (c : Char) : Nat := c.toNat - 48

/-- Most-significant-first decimal digits of `n`; the first argument is
structural fuel (any fuel at least `n` is enough), so the function reduces
in the kernel; the digit list is empty for `n = 0`. -/
def natDigitsAux : Nat → Nat → List Char
  | 0, _ => []
  | fuel + 1, n =>
    if n = 0 then []
    else natDigitsAux fuel (n / 10) ++ [digitChar (n % 10)]

/-- Decimal numeral of a natural number. -/
def natRepr (n : Nat) : String :=
  if n = 0 then "0" else ⟨natDigitsAux n n⟩

/-- Decimal numeral of an integer, with a leading minus sign if negative. -/
def intRepr (m : Int) : String :=
  if m < 0 then "-" ++ natRepr m.natAbs else natRepr m.natAbs

/-- Python `str` of a float holding the exact value `q`, modelled on its
decimal regime: an integral float of magnitude below 10 ^ 16 is printed as
the integer followed by ".0".  Python renders integral floats of magnitude
at least 10 ^ 16 in exponent notation and non-integral floats with a
shortest-round-trip decimal; both regimes are outside this model and
marked as such rather than rendered wrongly. -/
def pyFloatStr (q : ℚ) : String :=
  if q.den = 1 then
    if q.num.natAbs < 10 ^ 16 then intRepr q.num ++ ".0"
    else "<exponent notation not modelled>"
  else "<non-integral float rendering not modelled>"

/-- Number of binary digits of the second argument; the first argument is
structural fuel (any fuel at least the number itself is enough), so the
function reduces in the kernel. -/
def bitLen : Nat → Nat → Nat
  | 0, _ => 0
  | fuel + 1, n => if n = 0 then 0 else bitLen fuel (n / 2) + 1

/-- Binary64 rounding of an exact integer value, round-to-nearest with
ties to an even mantissa: integers of magnitude up to 2 ^ 53 are exactly
representable; above that the representable values in the binade of `m`
are the multiples of `2 ^ (bitLen - 53)`, and the nearest one is chosen
(the even-mantissa neighbour on a tie).  Magnitudes beyond the finite
float range do not occur in the verified statements. -/
def fl64Int (m : ℤ) : ℤ :=
  if m.natAbs ≤ 2 ^ 53 then m
  else
    let n := m.natAbs
    let k := bitLen n n - 53
    let q := n / 2 ^ k
    let r := n % 2 ^ k
    let half := 2 ^ (k - 1)
    let q2 :=
      if half < r then q + 1
      else if r < half then q
      else if q % 2 = 0 then q else q + 1
    if m < 0 then -(q2 * 2 ^ k : ℕ) else (q2 * 2 ^ k : ℕ)

/-- Embedding of `agent02.add_numbers` (src/agent02.py lines 38-41):
`str(a + b)` on binary64 floats, modelled for integer-valued float
arguments (each exactly representable): the float sum is the exact sum
rounded by `fl64Int`, and `str` is `pyFloatStr`. -/
def add_numbers (a b : ℤ) : String := pyFloatStr ((fl64Int (a + b) : ℤ) : ℚ)

/-- Value of a most-significant-first decimal digit string. -/
def valOfDigits (l : List Char) : Nat :=
  l.foldl (fun acc c => 10 * acc + digitVal c) 0

/-- Parse an unsigned decimal float string `intpart.fracpart` back to the
exact rational it denotes. -/
def parseUnsignedFloat (l : List Char) : Option ℚ :=
  let ip := l.takeWhile Char.isDigit
  let rest := l.dropWhile Char.isDigit
  if rest.headD ' ' = '.' then
    let fracs := rest.tail
    if ip = [] then none
    else if fracs = [] then none
    else if fracs.all Char.isDigit then
      some ((valOfDigits ip : ℚ) + (valOfDigits fracs : ℚ) / (10 : ℚ) ^ fracs.length)
    else none
  else none

/-- Parse a decimal float string, with an optional leading minus sign, back
to the exact rational it denotes. -/
def parsePyFloat (s : String) : Option ℚ :=
  if s.data.headD ' ' = '-' then (parseUnsignedFloat s.data.tail).map (fun q => -q)
  else parseUnsignedFloat s.data

theorem digitVal_digitChar (d : Nat) (h : d < 10) : digitVal (digitChar d) = d := by
  interval_cases d <;> decide

theorem isDigit_digitChar (d : Nat) (h : d < 10) : (digitChar d).isDigit = true := by
  interval_cases d <;> decide

theorem natDigitsAux_all_digit :
    ∀ fuel n, ∀ c ∈ natDigitsAux fuel n, c.isDigit = true := by
  intro fuel
  induction fuel with
  | zero => intro n c hc; simp [natDigitsAux] at hc
  | succ fuel ih =>
    intro n c hc
    by_cases h0 : n = 0
    · simp [natDigitsAux, h0] at hc
    · simp only [natDigitsAux, if_neg h0, List.mem_append] at hc
      rcases hc with h | h
      · exact ih _ c h
      · rw [List.mem_singleton] at h; subst h
        exact isDigit_digitChar _ (Nat.mod_lt _ (by norm_num))

theorem foldl_natDigitsAux :
    ∀ fuel n a, n ≤ fuel →
      List.foldl (fun acc c => 10 * acc + digitVal c) a (natDigitsAux fuel n) =
        a * 10 ^ (natDigitsAux fuel n).length + n := by
  intro fuel
  induction fuel with
  | zero =>
    intro n a h
    interval_cases n
    simp [natDigitsAux]
  | succ fuel ih =>
    intro n a h
    by_cases h0 : n = 0
    · subst h0; simp [natDigitsAux]
    · have hlt : n / 10 < n := Nat.div_lt_self (Nat.pos_of_ne_zero h0) (by norm_num)
      have hle : n / 10 ≤ fuel := by omega
      simp only [natDigitsAux, if_neg h0, List.foldl_append, List.length_append,
        List.foldl_cons, List.foldl_nil, List.length_cons, List.length_nil]
      rw [ih (n / 10) a hle]
      rw [digitVal_digitChar _ (Nat.mod_lt _ (by norm_num))]
      have hdm := Nat.div_add_mod n 10
      calc 10 * (a * 10 ^ (natDigitsAux fuel (n / 10)).length + n / 10) + n % 10
          = a * 10 ^ ((natDigitsAux fuel (n / 10)).length + (0 + 1)) +
              (10 * (n / 10) + n % 10) := by ring
        _ = a * 10 ^ ((natDigitsAux fuel (n / 10)).length + (0 + 1)) + n := by rw [hdm]

theorem valOfDigits_natDigits (n : Nat) :
    valOfDigits (natDigitsAux n n) = n := by
  unfold valOfDigits
  rw [foldl_natDigitsAux n n 0 le_rfl]
  simp

theorem natDigitsAux_ne_nil (n : Nat) (h : n ≠ 0) : natDigitsAux n n ≠ [] := by
  obtain ⟨m, rfl⟩ := Nat.exists_eq_succ_of_ne_zero h
  simp [natDigitsAux]

theorem natRepr_all_digit (n : Nat) : ∀ c ∈ (natRepr n).data, c.isDigit = true := by
  by_cases h0 : n = 0
  · subst h0; intro c hc; simp [natRepr] at hc; subst hc; decide
  · intro c hc
    rw [show (natRepr n).data = natDigitsAux n n by simp [natRepr, h0]] at hc
    exact natDigitsAux_all_digit n n c hc

theorem natRepr_ne_nil (n : Nat) : (natRepr n).data ≠ [] := by
  by_cases h0 : n = 0
  · subst h0; decide
  · rw [show (natRepr n).data = natDigitsAux n n by simp [natRepr, h0]]
    exact natDigitsAux_ne_nil n h0

theorem valOfDigits_natRepr (n : Nat) : valOfDigits (natRepr n).data = n := by
  by_cases h0 : n = 0
  · subst h0; rfl
  · rw [show (natRepr n).data = natDigitsAux n n by simp [natRepr, h0]]
    exact valOfDigits_natDigits n

theorem natRepr_head (n : Nat) :
    ∃ c cs, (natRepr n).data = c :: cs ∧ c.isDigit = true := by
  obtain ⟨c, cs, hcc⟩ := List.exists_cons_of_ne_nil (natRepr_ne_nil n)
  exact ⟨c, cs, hcc,
    natRepr_all_digit n c (by rw [hcc]; exact List.mem_cons_self _ _)⟩

theorem takeWhile_append_stop {p : Char → Bool} :
    ∀ (l₁ : List Char) (x : Char) (l₂ : List Char),
      (∀ c ∈ l₁, p c = true) → p x = false →
      (l₁ ++ x :: l₂).takeWhile p = l₁ ∧ (l₁ ++ x :: l₂).dropWhile p = x :: l₂ := by
  intro l₁
  induction l₁ with
  | nil =>
    intro x l₂ _ hx
    simp [List.takeWhile, List.dropWhile, hx]
  | cons a l ih =>
    intro x l₂ hall hx
    have ha : p a = true := hall a (List.mem_cons_self _ _)
    have h' := ih x l₂ (fun c hc => hall c (List.mem_cons_of_mem _ hc)) hx
    simp [List.takeWhile, List.dropWhile, ha, h'.1, h'.2]

theorem parseUnsignedFloat_natRepr (n : Nat) :
    parseUnsignedFloat ((natRepr n).data ++ ['.', '0']) = some (n : ℚ) := by
  have hsplit := takeWhile_append_stop (natRepr n).data '.' ['0']
    (natRepr_all_digit n) (by decide)
  have hv0 : valOfDigits ['0'] = 0 := rfl
  simp only [parseUnsignedFloat, hsplit.1, hsplit.2, List.headD_cons, List.tail_cons]
  rw [if_pos trivial, if_neg (natRepr_ne_nil n),
    if_neg (by decide : ¬(['0'] : List Char) = []),
    if_pos (by decide : (['0'] : List Char).all Char.isDigit = true)]
  rw [valOfDigits_natRepr, hv0]
  norm_num

theorem parsePyFloat_intRepr (m : ℤ) :
    parsePyFloat (intRepr m ++ ".0") = some (m : ℚ) := by
  by_cases hm : m < 0
  · have hdata : (intRepr m ++ ".0").data =
        '-' :: ((natRepr m.natAbs).data ++ ['.', '0']) := by
      unfold intRepr
      rw [if_pos hm, strData_append, strData_append]
      rfl
    unfold parsePyFloat
    rw [hdata]
    simp only [List.headD_cons, List.tail_cons, if_pos rfl]
    rw [parseUnsignedFloat_natRepr m.natAbs]
    have h1 : ((m.natAbs : ℕ) : ℚ) = -(m : ℚ) := by
      rw [Int.cast_natAbs]
      exact_mod_cast abs_of_nonpos hm.le
    simp [h1]
  · obtain ⟨c, cs, hc, hcd⟩ := natRepr_head m.natAbs
    have hdata : (intRepr m ++ ".0").data =
        (natRepr m.natAbs).data ++ ['.', '0'] := by
      unfold intRepr
      rw [if_neg hm, strData_append]
    have hcne : c ≠ '-' := by
      intro hceq; subst hceq; exact absurd hcd (by decide)
    unfold parsePyFloat
    rw [hdata, hc, List.cons_append]
    simp only [List.headD_cons, if_neg hcne]
    rw [← List.cons_append, ← hc, parseUnsignedFloat_natRepr m.natAbs]
    have h1 : ((m.natAbs : ℕ) : ℚ) = (m : ℚ) := by
      rw [Int.cast_natAbs]
      exact_mod_cast abs_of_nonneg (not_lt.mp hm)
    rw [h1]

/-- Counterexample to C2 as stated: at the arguments 2 ^ 53 and 1 — both
exactly representable binary64 floats — the float addition rounds (ties to
even), so the tool returns "9007199254740992.0", whose parsed value is
2 ^ 53 and not the exact sum 2 ^ 53 + 1 of the arguments. -/
theorem add_numbers_rounding_cex :
    add_numbers 9007199254740992 1 = "9007199254740992.0" ∧
    parsePyFloat (add_numbers 9007199254740992 1) =
      some ((9007199254740992 : ℤ) : ℚ) ∧
    parsePyFloat (add_numbers 9007199254740992 1) ≠
      some (((9007199254740992 : ℤ) : ℚ) + ((1 : ℤ) : ℚ)) := by
  have hfl : fl64Int (9007199254740992 + 1) = 9007199254740992 := by decide
  have h1 : add_numbers 9007199254740992 1 =
      intRepr (9007199254740992 : ℤ) ++ ".0" := by
    unfold add_numbers
    rw [hfl]
    unfold pyFloatStr
    rw [Rat.den_intCast, if_pos rfl, Rat.num_intCast, if_pos (by norm_num)]
  have hstr : intRepr (9007199254740992 : ℤ) ++ ".0" = "9007199254740992.0" := by
    decide
  have h2 : parsePyFloat (add_numbers 9007199254740992 1) =
      some ((9007199254740992 : ℤ) : ℚ) := by
    rw [h1, parsePyFloat_intRepr]
  refine ⟨by rw [h1, hstr], h2, ?_⟩
  rw [h2]
  simp only [ne_eq, Option.some.injEq]
  push_cast
  norm_num

/-- C2 (amended): the addition tool computes the binary64 float sum of its
arguments and returns its text, which equals the exact sum exactly when no
rounding occurs: for every pair of integer-valued arguments of magnitude
at most 2 ^ 52 — so both are exactly representable, their sum (of
magnitude at most 2 ^ 53) is added exactly, and the result prints in
decimal — the returned text parses back to exactly `a + b`; invoking the
tool with 3 and 4 yields "7.0", whose text contains "7". -/
theorem add_numbers_returns_sum :
    (∀ a b : ℤ, a.natAbs ≤ 2 ^ 52 → b.natAbs ≤ 2 ^ 52 →
      parsePyFloat (add_numbers a b) = some ((a : ℚ) + (b : ℚ))) ∧
    add_numbers 3 4 = "7.0" ∧
    pyIn "7" (add_numbers 3 4) = true := by
  have h70 : add_numbers 3 4 = "7.0" := by
    unfold add_numbers
    rw [show fl64Int (3 + 4) = ((7 : ℤ)) by decide]
    unfold pyFloatStr
    rw [Rat.den_intCast, if_pos rfl, Rat.num_intCast]
    rw [if_pos (by norm_num : ((7 : ℤ)).natAbs < 10 ^ 16)]
    decide
  refine ⟨?_, h70, by rw [h70]; decide⟩
  intro a b ha hb
  have h52 : (2 : ℕ) ^ 52 = 4503599627370496 := by norm_num
  have h53 : (2 : ℕ) ^ 53 = 9007199254740992 := by norm_num
  have hsum : (a + b).natAbs ≤ 2 ^ 53 := by
    rw [h52] at ha hb
    rw [h53]
    omega
  have hfl : fl64Int (a + b) = a + b := by
    unfold fl64Int
    rw [if_pos hsum]
  have hdec : (a + b).natAbs < 10 ^ 16 := by
    rw [h53] at hsum
    have h16 : (10 : ℕ) ^ 16 = 10000000000000000 := by norm_num
    rw [h16]
    omega
  unfold add_numbers
  rw [hfl]
  unfold pyFloatStr
  rw [Rat.den_intCast, if_pos rfl, Rat.num_intCast, if_pos hdec]
  rw [parsePyFloat_intRepr (a + b), Int.cast_add]

/-- Witness for C2 (amended) at the concrete in-range arguments 3 and 4. -/
theorem add_numbers_returns_sum_witness :
    (3 : ℤ).natAbs ≤ 2 ^ 52 ∧ (4 : ℤ).natAbs ≤ 2 ^ 52 ∧
    parsePyFloat (add_numbers 3 4) = some (((3 : ℤ) : ℚ) + ((4 : ℤ) : ℚ)) :=
  ⟨by norm_num, by norm_num,
    add_numbers_returns_sum.1 3 4 (by norm_num) (by norm_num)⟩

/-! ### Messages, agent state and the middleware hooks of `src/agent02.py`

The hooks read a LangChain state dict and message objects through
`state.get`, negative indexing, `getattr` with defaults and `hasattr`
checks.  Dict entries and the optional `tool_calls` attribute are modelled
with `Option`; the one fallible operation, `messages[-1]`, is modelled in
`Except` so that guardedness is a provable statement. -/

/-- The preview-truncation pattern used at three sites of the source:
`s[:n] + "..." if len(s) > n else s`. -/
def pyTruncate (n : Nat) (s : String) : String :=
  if pyLen s > n then pySlice s n ++ "..." else s

/-- A tool-call request as carried by an AI message: a dict with "name" and
"args" entries, read by the source via `dict.get` with defaults. -/
structure ToolCall where
  name : Option String
  args : Option (List (String × String))
deriving DecidableEq

/-- A message as the source accesses it: `type`, `content`, and the
optional `tool_calls` attribute (`none` models a message object without
the attribute, matching the source's `hasattr` checks). -/
structure Message where
  type : String
  content : String
  toolCalls : Option (List ToolCall)
deriving DecidableEq

/-- The agent state dict as the hooks see it; `none` models a state dict
without the "messages" key, matching `state.get("messages", [])`. -/
structure AgentState where
  messages : Option (List Message)
deriving DecidableEq

/-- A state patch a hook may return (`dict[str, Any] | None` in the
source); the hooks under verification always return `None`. -/
abbrev StatePatch := List (String × String)

/-- One observable side effect of a hook.  The hooks of the source only
print; the `toolInvocation` and `modelInvocation` constructors exist so
that never performing them is a statable property. -/
inductive Effect
  | print (line : String)
  | printToolNames (names : List (Option String))
  | toolInvocation (toolName : String) (args : List (String × String))
  | modelInvocation
deriving DecidableEq

/-- Is the effect a console print? -/
def Effect.isPrint : Effect → Bool
  | .print _ => true
  | .printToolNames _ => true
  | _ => false

/-- Embedding of `agent02.log_before_model` (src/agent02.py lines 50-82), with the
module-global `_call_count` threaded explicitly as first input and output.
Every print statement becomes one `Effect` in emission order;
`Effect.printToolNames` is unused here.  The single fallible operation is
the negative index `messages[-1]` (an `IndexError` on an empty list); all
other accesses (`state.get`, `getattr` with default) are total. -/
def log_before_model (callCount : Nat) (state : AgentState) :
    Nat × Except String (List Effect × Option StatePatch) :=
  let callCount := callCount + 1
  let messages := state.messages.getD []
  let header := [Effect.print "=== Middleware: before_model ===",
                 Effect.print ("[LOG] 调用次数: " ++ natRepr callCount),
                 Effect.print ("[LOG] 消息总数: " ++ natRepr messages.length)]
  if messages = [] then
    (callCount, .ok (header ++ [Effect.print "[LOG] 当前没有消息。"], none))
  else
    match messages.getLast? with
    | none => (callCount, .error "IndexError")
    | some last =>
      let msg_type := last.type
      let content := last.content
      let content_preview := pyTruncate 80 content
      (callCount, .ok (header ++
        [Effect.print ("[LOG] 最近一条消息（type=" ++ msg_type ++ "）: " ++
          content_preview)], none))

/-- Embedding of `agent02.log_after_model` (src/agent02.py lines 85-106).  The
`hasattr(last, "tool_calls") and last.tool_calls` check is the match on an
attribute that is present and truthy (a nonempty list); the printed Python
list comprehension `[tc.get('name') for tc in last.tool_calls]` is kept
structured as `Effect.printToolNames`. -/
def log_after_model (state : AgentState) :
    Except String (List Effect × Option StatePatch) :=
  let messages := state.messages.getD []
  let header := [Effect.print "=== Middleware: after_model ==="]
  if messages = [] then
    .ok (header ++ [Effect.print "[LOG] 没有消息记录。"], none)
  else
    match messages.getLast? with
    | none => .error "IndexError"
    | some last =>
      match last.toolCalls with
      | some (tc :: tcs) =>
        .ok (header ++ [Effect.printToolNames ((tc :: tcs).map ToolCall.name)], none)
      | _ =>
        .ok (header ++ [Effect.print "[LOG] 模型直接返回回答（未调用工具）"], none)

theorem getLast?_cons_isSome {α : Type} (a : α) (l : List α) :
    ∃ x, (a :: l).getLast? = some x := by
  induction l generalizing a with
  | nil => exact ⟨a, rfl⟩
  | cons b t ih => exact ih b

/-- C5: for every agent state — including one with an empty or missing
message list — both hook handlers complete without raising an uncaught
failure: the only fallible access, `messages[-1]`, is guarded by the
emptiness check in each hook, so no hook execution can abort the agent. -/
theorem hooks_never_fail (c : Nat) (s : AgentState) :
    (log_before_model c s).2.isOk = true ∧ (log_after_model s).isOk = true := by
  obtain ⟨ms⟩ := s
  constructor
  · unfold log_before_model
    rcases ms with _ | ⟨_ | ⟨m, l⟩⟩
    · rfl
    · rfl
    · obtain ⟨x, hx⟩ := getLast?_cons_isSome m l
      simp only [Option.getD_some]
      rw [if_neg (by simp), hx]
      rfl
  · unfold log_after_model
    rcases ms with _ | ⟨_ | ⟨m, l⟩⟩
    · rfl
    · rfl
    · obtain ⟨x, hx⟩ := getLast?_cons_isSome m l
      simp only [Option.getD_some]
      rw [if_neg (by simp), hx]
      obtain ⟨t, co, _ | ⟨_ | ⟨tc, tcs⟩⟩⟩ := x <;> rfl

/-- Does a hook result carry only console prints and no state patch?
(`error` results are excluded by C5 / `hooks_never_fail`.) -/
def hookObservesOnly (r : Except String (List Effect × Option StatePatch)) : Bool :=
  match r with
  | .error _ => true
  | .ok (effs, patch) => effs.all Effect.isPrint && patch.isNone

/-- C4: on every run state each registered hook returns no state patch
(`None` on every return path) and its effects are console prints only — it
never triggers a tool invocation or a model invocation; being a pure
function of the state, it leaves the message history unchanged. -/
theorem hooks_pure_observers (c : Nat) (s : AgentState) :
    hookObservesOnly (log_before_model c s).2 = true ∧
    hookObservesOnly (log_after_model s) = true := by
  obtain ⟨ms⟩ := s
  constructor
  · unfold log_before_model
    rcases ms with _ | ⟨_ | ⟨m, l⟩⟩
    · rfl
    · rfl
    · obtain ⟨x, hx⟩ := getLast?_cons_isSome m l
      simp only [Option.getD_some]
      rw [if_neg (by simp), hx]
      rfl
  · unfold log_after_model
    rcases ms with _ | ⟨_ | ⟨m, l⟩⟩
    · rfl
    · rfl
    · obtain ⟨x, hx⟩ := getLast?_cons_isSome m l
      simp only [Option.getD_some]
      rw [if_neg (by simp), hx]
      obtain ⟨t, co, _ | ⟨_ | ⟨tc, tcs⟩⟩⟩ := x <;> rfl

/-- Effects emitted by one before-model hook invocation at global counter
value `c` (the hook never errors, so the `error` arm is unreachable). -/
def beforeEffects (c : Nat) (s : AgentState) : List Effect :=
  match (log_before_model c s).2 with
  | .ok (effs, _) => effs
  | .error _ => []

/-- The module-global counter threaded through the before-model hook
invocations of successive model calls, collecting each invocation's
result: this is what two consecutive runs in one process share. -/
def runBeforeTrace (c : Nat) (states : List AgentState) :
    Nat × List (Except String (List Effect × Option StatePatch)) :=
  match states with
  | [] => (c, [])
  | s :: rest =>
    let r := log_before_model c s
    let (fin, outs) := runBeforeTrace r.1 rest
    (fin, r.2 :: outs)

/-- A concrete one-message state used as the identical input of two runs. -/
def exampleState : AgentState := ⟨some [⟨"human", "你好", none⟩]⟩

/-- Counterexample to C3 as stated: with the first run executed (one hook
invocation, leaving the global counter at `(runBeforeTrace 0 [exampleState]).1`),
the second run's hook observes different counter values than it would had
the first run not executed — the printed logs differ, so the counter is not
scoped to a single run's state. -/
theorem call_counter_not_run_scoped_cex :
    beforeEffects (runBeforeTrace 0 [exampleState]).1 exampleState ≠
      beforeEffects 0 exampleState := by decide

/-- C3 amended: the logging call counter is the module-global process-wide
`_call_count`, not state scoped to one run: every before-model hook
invocation increments it by one, so after a run with `n` hook invocations
it stands at `c + n`, and each invocation observes (and logs) the global
value `c + 1` continuing from whatever earlier runs left behind. -/
theorem call_counter_process_wide (c : Nat) (sts : List AgentState) (s : AgentState) :
    (runBeforeTrace c sts).1 = c + sts.length ∧
    Effect.print ("[LOG] 调用次数: " ++ natRepr (c + 1)) ∈ beforeEffects c s := by
  constructor
  · induction sts generalizing c with
    | nil => simp [runBeforeTrace]
    | cons s0 rest ih =>
      have hcount : (log_before_model c s0).1 = c + 1 := by
        unfold log_before_model
        rcases s0 with ⟨_ | ⟨_ | ⟨m, l⟩⟩⟩
        · rfl
        · rfl
        · obtain ⟨x, hx⟩ := getLast?_cons_isSome m l
          simp only [Option.getD_some]
          rw [if_neg (by simp), hx]
      simp only [runBeforeTrace, ih, hcount, List.length_cons]
      omega
  · unfold beforeEffects log_before_model
    rcases s with ⟨_ | ⟨_ | ⟨m, l⟩⟩⟩
    · simp
    · simp
    · obtain ⟨x, hx⟩ := getLast?_cons_isSome m l
      simp only [Option.getD_some]
      rw [if_neg (by simp), hx]
      simp

/-! ### The execution-trace printers

`agent02.print_execution_details` (src/agent02.py lines 142-166) and the
inline trace loop of `agent01.main` (src/agent01.py lines 69-84) walk the
message list counting tool calls; each `print` statement is modelled as one
structured `TraceLine` carrying the dynamic data it renders. -/

/-- One printed line of the execution trace. -/
inductive TraceLine
  | stepHeader (n : Nat)
  | toolName (name : String)
  | toolArgs (args : List (String × String))
  | toolReturn (preview : String)
  | noToolsUsed
deriving DecidableEq

/-- The `msg.type == "ai" and hasattr(msg, "tool_calls") and msg.tool_calls`
condition: an ai message whose tool-call attribute is present and truthy
(a nonempty list). -/
def hasLiveToolCalls (msg : Message) : Bool :=
  msg.type == "ai" &&
    (match msg.toolCalls with
     | some (_ :: _) => true
     | _ => false)

/-- The inner `for tool_call in msg.tool_calls` loop: for each tool call,
increment `step_count` and print the step header, tool name (`get` with
default "unknown") and tool args (`get` with default of the empty dict). -/
def emitToolCallLines (start : Nat) : List ToolCall → Nat × List TraceLine
  | [] => (start, [])
  | tc :: rest =>
    let n := start + 1
    let r := emitToolCallLines n rest
    (r.1, TraceLine.stepHeader n :: TraceLine.toolName (tc.name.getD "unknown") ::
      TraceLine.toolArgs (tc.args.getD []) :: r.2)

/-- The message-walking loop of `agent02.print_execution_details`: ai
messages with live tool calls emit step lines, tool messages emit an
80-character-truncated return preview. -/
def execDetailsAux (acc : Nat) : List Message → Nat × List TraceLine
  | [] => (acc, [])
  | msg :: rest =>
    if hasLiveToolCalls msg then
      let r := emitToolCallLines acc (msg.toolCalls.getD [])
      let t := execDetailsAux r.1 rest
      (t.1, r.2 ++ t.2)
    else if msg.type = "tool" then
      let t := execDetailsAux acc rest
      (t.1, TraceLine.toolReturn (pyTruncate 80 msg.content) :: t.2)
    else
      execDetailsAux acc rest

/-- Embedding of `agent02.print_execution_details` (src/agent02.py lines 142-166):
final `step_count` plus the emitted lines; the "(本次调用未使用工具)" line
is printed exactly when the count is zero. -/
def print_execution_details (messages : List Message) : Nat × List TraceLine :=
  let n := (execDetailsAux 0 messages).1
  let lines := (execDetailsAux 0 messages).2
  if n = 0 then (n, lines ++ [TraceLine.noToolsUsed]) else (n, lines)

/-- The inline trace loop of `agent01.main` (src/agent01.py lines 69-84):
identical to the walking loop of agent02 except that the tool-return line
prints the full content without truncation. -/
def agent01TraceAux (acc : Nat) : List Message → Nat × List TraceLine
  | [] => (acc, [])
  | msg :: rest =>
    if hasLiveToolCalls msg then
      let r := emitToolCallLines acc (msg.toolCalls.getD [])
      let t := agent01TraceAux r.1 rest
      (t.1, r.2 ++ t.2)
    else if msg.type = "tool" then
      let t := agent01TraceAux acc rest
      (t.1, TraceLine.toolReturn msg.content :: t.2)
    else
      agent01TraceAux acc rest

/-- The trace printing of `agent01.main`, with its trailing
"(本次调用未使用工具)" line when no tool was used. -/
def agent01_trace (messages : List Message) : Nat × List TraceLine :=
  let n := (agent01TraceAux 0 messages).1
  let lines := (agent01TraceAux 0 messages).2
  if n = 0 then (n, lines ++ [TraceLine.noToolsUsed]) else (n, lines)

/-- The full-history dump of `agent01.main` (src/agent01.py lines 86-93):
one line per message, with the content preview truncated at 100. -/
def agent01HistoryDump (messages : List Message) : List String :=
  messages.map (fun m => "  " ++ m.type ++ ": " ++ pyTruncate 100 m.content)

/-- Per-message count of tool-call requests carried by an ai-type message
(the specification-side quantity C9 compares against). -/
def aiToolCallCount (m : Message) : Nat :=
  if m.type = "ai" then (m.toolCalls.getD []).length else 0

/-- Total number of tool-call requests carried by ai-type messages. -/
def totalToolCalls (messages : List Message) : Nat :=
  (messages.map aiToolCallCount).sum

theorem aiToolCallCount_of_not_live (m : Message) (h : hasLiveToolCalls m = false) :
    aiToolCallCount m = 0 := by
  obtain ⟨t, co, tcs⟩ := m
  unfold hasLiveToolCalls at h
  unfold aiToolCallCount
  by_cases ht : t = "ai"
  · subst ht
    rcases tcs with _ | ⟨_ | ⟨tc, rest⟩⟩
    · rfl
    · rfl
    · simp at h
  · simp [ht]

theorem aiToolCallCount_of_live (m : Message) (h : hasLiveToolCalls m = true) :
    aiToolCallCount m = (m.toolCalls.getD []).length := by
  obtain ⟨t, co, tcs⟩ := m
  unfold hasLiveToolCalls at h
  have ht : t = "ai" := by
    simp only [Bool.and_eq_true, beq_iff_eq] at h
    exact h.1
  subst ht
  rfl

theorem emitToolCallLines_spec (tcs : List ToolCall) :
    ∀ start, (emitToolCallLines start tcs).1 = start + tcs.length ∧
      TraceLine.noToolsUsed ∉ (emitToolCallLines start tcs).2 := by
  induction tcs with
  | nil => intro start; simp [emitToolCallLines]
  | cons tc rest ih =>
    intro start
    have h := ih (start + 1)
    simp only [emitToolCallLines, h.1, List.length_cons, List.mem_cons]
    constructor
    · omega
    · rintro (h1 | h1 | h1 | h1)
      · exact TraceLine.noConfusion h1
      · exact TraceLine.noConfusion h1
      · exact TraceLine.noConfusion h1
      · exact h.2 h1

theorem execDetailsAux_spec (messages : List Message) :
    ∀ acc, (execDetailsAux acc messages).1 = acc + totalToolCalls messages ∧
      TraceLine.noToolsUsed ∉ (execDetailsAux acc messages).2 := by
  induction messages with
  | nil => intro acc; simp [execDetailsAux, totalToolCalls]
  | cons msg rest ih =>
    intro acc
    have htot : totalToolCalls (msg :: rest) =
        aiToolCallCount msg + totalToolCalls rest := by
      simp [totalToolCalls]
    by_cases hl : hasLiveToolCalls msg = true
    · have hemit := emitToolCallLines_spec (msg.toolCalls.getD []) acc
      have hrec := ih (emitToolCallLines acc (msg.toolCalls.getD [])).1
      simp only [execDetailsAux, if_pos hl]
      constructor
      · rw [hrec.1, hemit.1, htot, aiToolCallCount_of_live msg hl]
        omega
      · simp only [List.mem_append]
        rintro (h1 | h1)
        · exact hemit.2 h1
        · exact hrec.2 h1
    · have hl2 : hasLiveToolCalls msg = false := by
        revert hl; cases hasLiveToolCalls msg <;> simp
      have hz : aiToolCallCount msg = 0 := aiToolCallCount_of_not_live msg hl2
      have hrec := ih acc
      by_cases ht : msg.type = "tool"
      · simp only [execDetailsAux, if_neg hl, if_pos ht, List.mem_cons]
        constructor
        · rw [hrec.1, htot, hz]
          omega
        · rintro (h1 | h1)
          · exact TraceLine.noConfusion h1
          · exact hrec.2 h1
      · simp only [execDetailsAux, if_neg hl, if_neg ht]
        refine ⟨?_, hrec.2⟩
        rw [hrec.1, htot, hz]
        omega

theorem agent01TraceAux_spec (messages : List Message) :
    ∀ acc, (agent01TraceAux acc messages).1 = acc + totalToolCalls messages ∧
      TraceLine.noToolsUsed ∉ (agent01TraceAux acc messages).2 := by
  induction messages with
  | nil => intro acc; simp [agent01TraceAux, totalToolCalls]
  | cons msg rest ih =>
    intro acc
    have htot : totalToolCalls (msg :: rest) =
        aiToolCallCount msg + totalToolCalls rest := by
      simp [totalToolCalls]
    by_cases hl : hasLiveToolCalls msg = true
    · have hemit := emitToolCallLines_spec (msg.toolCalls.getD []) acc
      have hrec := ih (emitToolCallLines acc (msg.toolCalls.getD [])).1
      simp only [agent01TraceAux, if_pos hl]
      constructor
      · rw [hrec.1, hemit.1, htot, aiToolCallCount_of_live msg hl]
        omega
      · simp only [List.mem_append]
        rintro (h1 | h1)
        · exact hemit.2 h1
        · exact hrec.2 h1
    · have hl2 : hasLiveToolCalls msg = false := by
        revert hl; cases hasLiveToolCalls msg <;> simp
      have hz : aiToolCallCount msg = 0 := aiToolCallCount_of_not_live msg hl2
      have hrec := ih acc
      by_cases ht : msg.type = "tool"
      · simp only [agent01TraceAux, if_neg hl, if_pos ht, List.mem_cons]
        constructor
        · rw [hrec.1, htot, hz]
          omega
        · rintro (h1 | h1)
          · exact TraceLine.noConfusion h1
          · exact hrec.2 h1
      · simp only [agent01TraceAux, if_neg hl, if_neg ht]
        refine ⟨?_, hrec.2⟩
        rw [hrec.1, htot, hz]
        omega

/-- C9: for every message list, the step count reported by each
execution-trace printer equals the total number of tool-call requests
carried by ai-type messages, and the "(本次调用未使用工具)" ("no tools
used") line is printed iff that total is zero — in both `agent02`'s
`print_execution_details` and `agent01`'s inline trace loop. -/
theorem trace_step_count_correct (messages : List Message) :
    (print_execution_details messages).1 = totalToolCalls messages ∧
    (TraceLine.noToolsUsed ∈ (print_execution_details messages).2 ↔
      totalToolCalls messages = 0) ∧
    (agent01_trace messages).1 = totalToolCalls messages ∧
    (TraceLine.noToolsUsed ∈ (agent01_trace messages).2 ↔
      totalToolCalls messages = 0) := by
  have h2 := execDetailsAux_spec messages 0
  have h1 := agent01TraceAux_spec messages 0
  rw [Nat.zero_add] at h1 h2
  simp only [print_execution_details, agent01_trace]
  rw [h1.1, h2.1]
  by_cases hz : totalToolCalls messages = 0
  · rw [if_pos hz, if_pos hz]
    refine ⟨rfl, ?_, rfl, ?_⟩
    · simp [hz]
    · simp [hz]
  · rw [if_neg hz, if_neg hz]
    exact ⟨rfl, iff_of_false h2.2 hz, rfl, iff_of_false h1.2 hz⟩

/-- Witness for C9 at a concrete two-tool-call history. -/
theorem trace_step_count_correct_witness :
    (print_execution_details
        [⟨"human", "hi", none⟩,
         ⟨"ai", "", some [⟨some "get_current_weather", some [("city", "Beijing")]⟩,
                          ⟨some "add_numbers", some [("a", "3"), ("b", "4")]⟩]⟩,
         ⟨"tool", "7.0", none⟩]).1 =
      totalToolCalls
        [⟨"human", "hi", none⟩,
         ⟨"ai", "", some [⟨some "get_current_weather", some [("city", "Beijing")]⟩,
                          ⟨some "add_numbers", some [("a", "3"), ("b", "4")]⟩]⟩,
         ⟨"tool", "7.0", none⟩] :=
  (trace_step_count_correct _).1

/-! ### Content-preview truncation (C10) -/

theorem pyLen_append (a b : String) : pyLen (a ++ b) = pyLen a + pyLen b := by
  unfold pyLen
  rw [strData_append, List.length_append]

theorem pyLen_pySlice (s : String) (n : Nat) : pyLen (pySlice s n) = min n (pyLen s) := by
  unfold pyLen pySlice
  exact List.length_take _ _

theorem pyTruncate_long (n : Nat) (s : String) (h : pyLen s > n) :
    pyTruncate n s = pySlice s n ++ "..." ∧ pyLen (pyTruncate n s) = n + 3 := by
  unfold pyTruncate
  rw [if_pos h]
  refine ⟨rfl, ?_⟩
  rw [pyLen_append, pyLen_pySlice]
  have h3 : pyLen "..." = 3 := rfl
  rw [h3]
  omega

theorem pyTruncate_short (n : Nat) (s : String) (h : ¬pyLen s > n) :
    pyTruncate n s = s := by
  unfold pyTruncate
  rw [if_neg h]

/-- C10: every message-content preview is length-bounded.  The before-model
hook and `agent02`'s trace printer truncate content at 80 characters, the
history dump of `agent01.main` at 100 (the sites use `pyTruncate`, see
`log_before_model`, `execDetailsAux`, `agent01HistoryDump`): content longer
than the threshold is previewed as exactly its first threshold characters
followed by "..." (so 83 resp. 103 characters in all), and shorter content
is previewed verbatim.  The last two conjuncts re-check the truncation as
it is wired into the hook and into the dump. -/
theorem content_previews_bounded (s : String) (m : Message) :
    (pyLen s > 80 →
      pyTruncate 80 s = pySlice s 80 ++ "..." ∧ pyLen (pyTruncate 80 s) = 83) ∧
    (pyLen s ≤ 80 → pyTruncate 80 s = s) ∧
    (pyLen s > 100 →
      pyTruncate 100 s = pySlice s 100 ++ "..." ∧ pyLen (pyTruncate 100 s) = 103) ∧
    (pyLen s ≤ 100 → pyTruncate 100 s = s) ∧
    pyLen (pyTruncate 80 s) ≤ 83 ∧ pyLen (pyTruncate 100 s) ≤ 103 ∧
    agent01HistoryDump [m] = ["  " ++ m.type ++ ": " ++ pyTruncate 100 m.content] ∧
    (∀ c t tcs, beforeEffects c ⟨some [⟨t, s, tcs⟩]⟩ =
      [Effect.print "=== Middleware: before_model ===",
       Effect.print ("[LOG] 调用次数: " ++ natRepr (c + 1)),
       Effect.print ("[LOG] 消息总数: " ++ natRepr 1),
       Effect.print ("[LOG] 最近一条消息（type=" ++ t ++ "）: " ++ pyTruncate 80 s)]) := by
  refine ⟨fun h => pyTruncate_long 80 s h, fun h => pyTruncate_short 80 s (by omega),
    fun h => pyTruncate_long 100 s h, fun h => pyTruncate_short 100 s (by omega),
    ?_, ?_, rfl, fun c t tcs => rfl⟩
  · by_cases h : pyLen s > 80
    · rw [(pyTruncate_long 80 s h).2]
    · rw [pyTruncate_short 80 s h]
      omega
  · by_cases h : pyLen s > 100
    · rw [(pyTruncate_long 100 s h).2]
    · rw [pyTruncate_short 100 s h]
      omega

/-- A 101-character content string used to witness the long case of C10. -/
def longContent : String := ⟨List.replicate 101 'a'⟩

/-- Witness for C10: the long case at a concrete 101-character string and
the short case at a concrete short string. -/
theorem content_previews_bounded_witness :
    (pyLen longContent > 100 ∧
      (pyTruncate 100 longContent = pySlice longContent 100 ++ "..." ∧
        pyLen (pyTruncate 100 longContent) = 103)) ∧
    (pyLen "hello" ≤ 80 ∧ pyTruncate 80 "hello" = "hello") :=
  ⟨⟨by decide, (content_previews_bounded longContent ⟨"ai", "", none⟩).2.2.1 (by decide)⟩,
   ⟨by decide, (content_previews_bounded "hello" ⟨"ai", "", none⟩).2.1 (by decide)⟩⟩

/-! ### Seed messages handed to `agent.invoke` (C6) -/

/-- Input dict passed to `agent.invoke`: the caller-seeded `messages`
field, a list of `(role, content)` pairs as in the source literals. -/
structure AgentInput where
  messages : List (String × String)
deriving DecidableEq

/-- The user utterance of `agent01.main` (src/agent01.py line 53). -/
def agent01_user_input : String :=
  "帮我查一下北京的天气，然后再用一句话建议我要不要带伞。"

/-- The invoke argument of `agent01.main` (src/agent01.py line 57). -/
def agent01_invoke_input : AgentInput := ⟨[("user", agent01_user_input)]⟩

/-- The test utterances of `agent02.main` (src/agent02.py lines 183-186). -/
def test_inputs : List String :=
  ["帮我查一下北京的天气，然后再算一下 12.5 加 7.3。",
   "上海的天气怎么样？另外帮我算 100 减 37.5。"]

/-- The invoke arguments of `agent02.main` (src/agent02.py line 194), one
per test utterance. -/
def agent02_invoke_inputs : List AgentInput :=
  test_inputs.map (fun u => ⟨[("user", u)]⟩)

/-- C6: the message history handed to the agent at the start of every run
consists of exactly one entry — the caller's initial user message, with
role "user" and content equal to the caller's utterance — and no other
seed messages, for the one run of `agent01.main` and for each run of
`agent02.main`. -/
theorem seed_history_single_user_message :
    (agent01_invoke_input.messages = [("user", agent01_user_input)] ∧
      agent01_invoke_input.messages.length = 1) ∧
    (∀ inp ∈ agent02_invoke_inputs,
      inp.messages.length = 1 ∧ ∃ u ∈ test_inputs, inp.messages = [("user", u)]) := by
  refine ⟨⟨rfl, rfl⟩, ?_⟩
  intro inp hinp
  unfold agent02_invoke_inputs test_inputs at hinp
  simp only [List.map_cons, List.map_nil, List.mem_cons, List.not_mem_nil,
    or_false] at hinp
  rcases hinp with rfl | rfl
  · exact ⟨rfl, "帮我查一下北京的天气，然后再算一下 12.5 加 7.3。", by decide, rfl⟩
  · exact ⟨rfl, "上海的天气怎么样？另外帮我算 100 减 37.5。", by decide, rfl⟩

/-- Witness for C6 at the first invoke argument of `agent02.main`. -/
theorem seed_history_single_user_message_witness :
    (AgentInput.mk [("user", "帮我查一下北京的天气，然后再算一下 12.5 加 7.3。")])
        ∈ agent02_invoke_inputs ∧
    ((AgentInput.mk [("user", "帮我查一下北京的天气，然后再算一下 12.5 加 7.3。")]).messages.length = 1 ∧
      ∃ u ∈ test_inputs,
        (AgentInput.mk [("user", "帮我查一下北京的天气，然后再算一下 12.5 加 7.3。")]).messages
          = [("user", u)]) :=
  ⟨by decide, seed_history_single_user_message.2 _ (by decide)⟩

/-! ### Configuration (C7) -/

/-- An environment: a mapping from variable names to optional values. -/
def Env := String → Option String

/-- The `os.getenv` reads each module performs at import time — exactly one
per module (src/agent01.py line 14, src/agent02.py line 22). -/
def moduleEnvReads : List String := ["OPENROUTER_API_KEY"]

/-- The module-level credential binding `OPENROUTER_API_KEY`. -/
def OPENROUTER_API_KEY (env : Env) : Option String := env "OPENROUTER_API_KEY"

/-- The constructor arguments of the `ChatOpenAI` model client. -/
structure ChatClientConfig where
  model : String
  base_url : String
  api_key : Option String
  temperature : ℚ
deriving DecidableEq

/-- The client `agent01.main` constructs (src/agent01.py lines 31-36);
the Python float literal `0.2` is the exact decimal two tenths. -/
def agent01_llm (env : Env) : ChatClientConfig :=
  { model := "z-ai/glm-4.5-air:free"
    base_url := "https://openrouter.ai/api/v1"
    api_key := OPENROUTER_API_KEY env
    temperature := 2 / 10 }

/-- The client `agent02.build_agent` constructs (src/agent02.py lines
118-123). -/
def agent02_llm (env : Env) : ChatClientConfig :=
  { model := "z-ai/glm-4.5-air:free"
    base_url := "https://openrouter.ai/api/v1"
    api_key := OPENROUTER_API_KEY env
    temperature := 2 / 10 }

/-- C7: configuration is loaded once at process start and passed opaquely:
each module reads the credential from the environment exactly once (the
only `os.getenv` call), and, for every environment, every constructed
client receives the same model identifier, endpoint and temperature — the
two agents' clients are field-for-field equal — with the credential passed
through unchanged.  (The source sets no explicit max-step budget; the step
bound is the agent library's fixed default, constant for the process.) -/
theorem config_loaded_once_and_shared :
    (moduleEnvReads = ["OPENROUTER_API_KEY"] ∧
      moduleEnvReads.count "OPENROUTER_API_KEY" = 1) ∧
    ∀ env : Env,
      agent01_llm env = agent02_llm env ∧
      (agent02_llm env).api_key = env "OPENROUTER_API_KEY" ∧
      (agent02_llm env).model = "z-ai/glm-4.5-air:free" ∧
      (agent02_llm env).base_url = "https://openrouter.ai/api/v1" ∧
      (agent02_llm env).temperature = 2 / 10 := by
  exact ⟨⟨rfl, by decide⟩, fun env => ⟨rfl, rfl, rfl, rfl, rfl⟩⟩

end Agent
